import Mathlib

/-!
Verification of the kvs repository's wire protocol, frame transport and
command layer, via a shallow embedding of the Rust source into Lean.

Conventions of the embedding:
* Rust `u64` values are `Nat` with wrap-around written explicitly as `% 2^64`;
  `i64` values are `Int` with two's-complement casts made explicit.
* Byte buffers (`BytesMut`, `&[u8]`, `Vec<u8>`) are `List Nat` of byte values.
* `Cow<'_, _>` payloads carry an explicit `owned : Bool` flag
  (`false` = `Cow::Borrowed`, `true` = `Cow::Owned`); Rust's derived
  `PartialEq` on `Value` compares contents only, but pattern matches in the
  source (e.g. `Value::String(Cow::Borrowed(_))` in `CommandEntry::parse`)
  observe the flag, so it must be part of the model.
* Fallible code returns `Option`/`Except`; a `none` at the outer layer of the
  command decoder models a Rust panic (`todo!()` or an out-of-bounds index).
* The recursive nom parser is embedded with explicit fuel; the top-level
  entry point supplies `input.length + 1` fuel, which is enough because every
  recursive call consumes at least the one-byte header first.
-/

namespace Kvs

/-- Major-type constant for positive integers (`POSITIVE_MAJOR`). -/
def POSITIVE_MAJOR : Nat := 0

/-- Major-type constant for negative integers (`NEGATIVE_MAJOR`). -/
def NEGATIVE_MAJOR : Nat := 1

/-- Major-type constant for byte strings (`BYTES_MAJOR`). -/
def BYTES_MAJOR : Nat := 2

/-- Major-type constant for text strings (`STRING_MAJOR`). -/
def STRING_MAJOR : Nat := 3

/-- Major-type constant for arrays (`ARRAY_MAJOR`). -/
def ARRAY_MAJOR : Nat := 4

/-- Major-type constant for error strings (`ERROR_MAJOR`). -/
def ERROR_MAJOR : Nat := 5

/-- Major-type constant for maps (`MAP_MAJOR`). -/
def MAP_MAJOR : Nat := 6

/-- Major-type constant reserved for floats (`FLOAT_MAJOR`, unused). -/
def FLOAT_MAJOR : Nat := 7

/-- The additional-information sentinel `INDEFINITE_LENGTH`. -/
def INDEFINITE_LENGTH : Nat := 31

/-- The recursive wire value type `Value` from `src/protocol/mod.rs`.
`bytes`/`str`/`error` payloads are `Cow`s in the source; the `owned` flag
records the `Cow` variant (`false` = borrowed, `true` = owned).  `str` and
`error` payloads are stored as their UTF-8 bytes.  `map` entries keep the
`HashMap`'s iteration order as a list of (raw key bytes, value) pairs. -/
inductive Value where
  | positive (n : Nat)
  | negative (n : Int)
  | bytes (owned : Bool) (data : List Nat)
  | str (owned : Bool) (data : List Nat)
  | array (elems : List Value)
  | map (entries : List (List Nat × Value))
  | error (owned : Bool) (data : List Nat)
  deriving Repr

/-- UTF-8 bytes of an ASCII Lean string, used for the literal `&str`s of the
source (command names and error messages, all ASCII). -/
def asciiBytes (s : String) : List Nat := s.data.map Char.toNat

mutual

/-- `Value::to_owned` from `src/protocol/mod.rs`: converts every `Cow`
payload to its owned form, recursively. -/
def Value.toOwned : Value → Value
  | .positive n => .positive n
  | .negative n => .negative n
  | .bytes _ b => .bytes true b
  | .str _ s => .str true s
  | .array vs => .array (toOwnedList vs)
  | .map es => .map (toOwnedEntries es)
  | .error _ e => .error true e

/-- `to_owned` mapped over the elements of an array. -/
def toOwnedList : List Value → List Value
  | [] => []
  | v :: vs => v.toOwned :: toOwnedList vs

/-- `to_owned` mapped over the values of a map's entries (`BytesMut` keys
are already owned). -/
def toOwnedEntries : List (List Nat × Value) → List (List Nat × Value)
  | [] => []
  | (k, v) :: es => (k, v.toOwned) :: toOwnedEntries es

end

/-- Whether a value is one of the two integer variants (the variants the
increment/decrement commands mutate). -/
def Value.isNumber : Value → Bool
  | .positive _ => true
  | .negative _ => true
  | _ => false

/-! ### 64-bit helper arithmetic (explicit two's-complement casts) -/

/-- Reinterpret a `u64` bit pattern as `i64` (the Rust `as i64` cast). -/
def asI64 (n : Nat) : Int :=
  if n < 2 ^ 63 then (n : Int) else (n : Int) - 2 ^ 64

/-- Truncate an `Int` to its low 64 bits, i.e. the `u64` bit pattern of the
two's-complement representation (the Rust `as u64` cast). -/
def toU64 (x : Int) : Nat := (x % 2 ^ 64).toNat

/-- Guarded `u64` subtraction: `some (a - b)` when it does not underflow,
`none` on underflow.  In the source `a - b` on `u64` panics on underflow in
debug builds and wraps modulo `2^64` in release builds. -/
def u64_sub (a b : Nat) : Option Nat :=
  if b ≤ a then some (a - b) else none

/-- Release-mode `u64` subtraction: the guarded subtraction with the
underflow branch wrapping modulo `2^64`. -/
def u64_wrapping_sub (a b : Nat) : Nat :=
  match u64_sub a b with
  | some r => r
  | none => (a + 2 ^ 64 - b % 2 ^ 64) % 2 ^ 64

/-- Release-mode wrapping `i64` subtraction. -/
def i64_wrapping_sub (a b : Int) : Int := asI64 (toU64 (a - b))

/-- Release-mode wrapping `i64` addition. -/
def i64_wrapping_add (a b : Int) : Int := asI64 (toU64 (a + b))

/-- `i64::abs` with release-mode wrapping at `i64::MIN`. -/
def i64_abs_wrapping (n : Int) : Int :=
  if n = -(2 ^ 63) then n else |n|

/-- Number of significant bits of `n` (fuelled so that it evaluates by
kernel reduction; 64 iterations suffice for any `u64`). -/
def bitLenAux : Nat → Nat → Nat
  | 0, _ => 0
  | fuel + 1, n => if n = 0 then 0 else bitLenAux fuel (n / 2) + 1

/-- `u64::leading_zeros` on the low 64 bits of `n`. -/
def u64_leading_zeros (n : Nat) : Nat := 64 - bitLenAux 64 (n % 2 ^ 64)

/-- The low `len` bytes of `x`, big-endian — the `BufMut::put_int` payload. -/
def beBytes (x : Nat) (len : Nat) : List Nat :=
  (List.range len).map (fun i => x >>> (8 * (len - 1 - i)) &&& 255)

/-! ### Encoder (`src/protocol/encode.rs`) -/

/-- `encode_positive`: inline when `n < 24`, else header `len + 23` followed
by the minimal big-endian bytes. -/
def encode_positive (n : Nat) : List Nat :=
  if n < 24 then
    [(POSITIVE_MAJOR <<< 5) ||| (n % 256)]
  else
    let lz := u64_leading_zeros n
    let len0 := (64 - lz) / 8
    let len := if len0 = 0 || lz % 8 ≠ 0 then len0 + 1 else len0
    ((POSITIVE_MAJOR <<< 5) ||| ((len + 23) % 256)) :: beBytes n len

/-- `encode_negative`: inline magnitude `-n` when `|n| < 24` (note: the
source stores `-n`, not the offset `-(n+1)`), else header `len + 23`
followed by the big-endian bytes of `-(n+1)`, with `len` computed from the
leading zeros of `-n`. -/
def encode_negative (n : Int) : List Nat :=
  if i64_abs_wrapping n < 24 then
    [(NEGATIVE_MAJOR <<< 5) ||| (toU64 (-n) % 256)]
  else
    let lz := u64_leading_zeros (toU64 (-n))
    let len0 := (64 - lz) / 8
    let len := if len0 = 0 || lz % 8 ≠ 0 then len0 + 1 else len0
    ((NEGATIVE_MAJOR <<< 5) ||| ((len + 23) % 256)) :: beBytes (toU64 (-(n + 1))) len

/-- `encode_bytes`: a single byte `< 24` is folded into the header;
otherwise the header's additional-info is the payload length (`len as u8`,
with no `< 31` check and no sentinel) followed by the raw payload. -/
def encode_bytes (bytes : List Nat) : List Nat :=
  match bytes.head? with
  | some first =>
    if bytes.length = 1 && first < 24 then
      [(BYTES_MAJOR <<< 5) ||| first]
    else
      ((BYTES_MAJOR <<< 5) ||| (bytes.length % 256)) :: bytes
  | none => ((BYTES_MAJOR <<< 5) ||| (bytes.length % 256)) :: bytes

/-- `encode_string`: same shape as `encode_bytes` with the text-string
major type, over the string's UTF-8 bytes. -/
def encode_string (bytes : List Nat) : List Nat :=
  match bytes.head? with
  | some first =>
    if bytes.length = 1 && first < 24 then
      [(STRING_MAJOR <<< 5) ||| first]
    else
      ((STRING_MAJOR <<< 5) ||| (bytes.length % 256)) :: bytes
  | none => ((STRING_MAJOR <<< 5) ||| (bytes.length % 256)) :: bytes

/-- `encode_error`: same shape as `encode_string` with the error major
type. -/
def encode_error (bytes : List Nat) : List Nat :=
  match bytes.head? with
  | some first =>
    if bytes.length = 1 && first < 24 then
      [(ERROR_MAJOR <<< 5) ||| first]
    else
      ((ERROR_MAJOR <<< 5) ||| (bytes.length % 256)) :: bytes
  | none => ((ERROR_MAJOR <<< 5) ||| (bytes.length % 256)) :: bytes

mutual

/-- `Value::encode` from `src/protocol/mod.rs`, dispatching on the
variant.  The `array` arm is `encode_array`: count in additional-info when
`< 31`, else the sentinel `31` with a trailing `0xFF` terminator.  The
`map` arm is `enode_map` (sic, the source's name): the header uses
`ARRAY_MAJOR`, and in the `≥ 31` branch the header byte is the bare
sentinel `31` without any major bits; each entry is the stored raw key
bytes followed by the encoded value. -/
def Value.encode : Value → List Nat
  | .positive n => encode_positive n
  | .negative n => encode_negative n
  | .bytes _ b => encode_bytes b
  | .str _ s => encode_string s
  | .array vs =>
    (if vs.length < 31 then (ARRAY_MAJOR <<< 5) ||| (vs.length % 256)
     else (ARRAY_MAJOR <<< 5) ||| INDEFINITE_LENGTH)
      :: (encodeEach vs ++ if vs.length ≥ 31 then [255] else [])
  | .map es =>
    (if es.length < 31 then (ARRAY_MAJOR <<< 5) ||| (es.length % 256)
     else INDEFINITE_LENGTH)
      :: (encodeEntries es ++ if es.length ≥ 31 then [255] else [])
  | .error _ e => encode_error e

/-- Concatenation of the encodings of a list of values
(`encode_array`'s `flat_map`). -/
def encodeEach : List Value → List Nat
  | [] => []
  | v :: vs => v.encode ++ encodeEach vs

/-- Concatenation of the encodings of a list of map entries
(`enode_map`'s `flat_map`: raw key bytes, then the encoded value). -/
def encodeEntries : List (List Nat × Value) → List Nat
  | [] => []
  | (k, v) :: es => k ++ v.encode ++ encodeEntries es

end

/-! ### Parser (`src/protocol/parse.rs`)

The nom combinators are embedded directly: a parser takes the input bytes
and returns `none` on failure or `some (remaining, result)`.  The mutual
recursion of `parse` through `count`/`many_till` is fuelled; the top-level
entry point `parse` supplies `input.length + 1` fuel, which is enough for
any input because every recursive call first consumes the one-byte header. -/

/-- `u64::from_be_bytes` after left zero-padding (`parse_number`'s
accumulation of at most 8 big-endian bytes). -/
def fromBE (bytes : List Nat) : Nat :=
  bytes.foldl (fun acc b => acc * 256 + b) 0

/-- `std::str::from_utf8` validity check on a byte list (RFC 3629: rejects
overlong forms, surrogates, and code points above `U+10FFFF`). -/
def validUtf8 : List Nat → Bool
  | [] => true
  | b :: rest =>
    if b < 0x80 then validUtf8 rest
    else if b < 0xC2 then false
    else if b ≤ 0xDF then
      match rest with
      | c :: r => 0x80 ≤ c && c ≤ 0xBF && validUtf8 r
      | [] => false
    else if b ≤ 0xEF then
      match rest with
      | c :: d :: r =>
        let lo := if b = 0xE0 then 0xA0 else 0x80
        let hi := if b = 0xED then 0x9F else 0xBF
        lo ≤ c && c ≤ hi && 0x80 ≤ d && d ≤ 0xBF && validUtf8 r
      | _ => false
    else if b ≤ 0xF4 then
      match rest with
      | c :: d :: e :: r =>
        let lo := if b = 0xF0 then 0x90 else 0x80
        let hi := if b = 0xF4 then 0x8F else 0xBF
        lo ≤ c && c ≤ hi && 0x80 ≤ d && d ≤ 0xBF && 0x80 ≤ e && e ≤ 0xBF &&
          validUtf8 r
      | _ => false
    else false

/-- `parse_first_byte`: one byte split into the 3 high bits (major) and the
5 low bits (additional information). -/
def parse_first_byte (input : List Nat) : Option (List Nat × Nat × Nat) :=
  match input with
  | [] => none
  | b :: rest => some (rest, b >>> 5, b &&& 0x1F)

/-- `parse_number`: inline when `additional < 24`, else `additional - 23`
big-endian payload bytes, zero-padded into a `u64`. -/
def parse_number (input : List Nat) (additional : Nat) :
    Option (List Nat × Nat) :=
  if additional < 24 then some (input, additional)
  else
    let k := additional - 23
    if k ≤ input.length then some (input.drop k, fromBE (input.take k))
    else none

/-- `parse_bytes`: when `additional < 23` the result is the owned
single-byte payload `[additional]` (`Cow::from(vec![additional])`) with no
input consumed; otherwise `additional - 23` payload bytes are taken as a
borrowed slice. -/
def parse_bytes (input : List Nat) (additional : Nat) :
    Option (List Nat × Value) :=
  if additional < 23 then some (input, .bytes true [additional])
  else
    let k := additional - 23
    if k ≤ input.length then some (input.drop k, .bytes false (input.take k))
    else none

/-- `parse_string`: the same inline rule as `parse_bytes` — note the
inline branch produces a `Value::Bytes`, not a `Value::String` — otherwise
`additional - 23` bytes validated as UTF-8 and returned borrowed. -/
def parse_string (input : List Nat) (additional : Nat) :
    Option (List Nat × Value) :=
  if additional < 23 then some (input, .bytes true [additional])
  else
    let k := additional - 23
    if k ≤ input.length then
      if validUtf8 (input.take k) then
        some (input.drop k, .str false (input.take k))
      else none
    else none

/-- `parse_error`: identical to `parse_string` except the multi-byte
branch wraps the text in `Value::Error`. -/
def parse_error (input : List Nat) (additional : Nat) :
    Option (List Nat × Value) :=
  if additional < 23 then some (input, .bytes true [additional])
  else
    let k := additional - 23
    if k ≤ input.length then
      if validUtf8 (input.take k) then
        some (input.drop k, .error false (input.take k))
      else none
    else none

/-- `HashMap::insert` semantics on the association-list model: replace an
existing binding for the key, else append. -/
def hashMapInsert (k : List Nat) (v : Value) :
    List (List Nat × Value) → List (List Nat × Value)
  | [] => [(k, v)]
  | (k', v') :: rest =>
    if k' = k then (k, v) :: rest else (k', v') :: hashMapInsert k v rest

/-- `HashMap::from_iter`: sequential inserts, later duplicates
overwriting earlier ones. -/
def hashMapFromIter (entries : List (List Nat × Value)) :
    List (List Nat × Value) :=
  entries.foldl (fun m e => hashMapInsert e.1 e.2 m) []

/-- nom `count(p, n)`: exactly `n` sequential applications of `p`. -/
def countP (p : List Nat → Option (List Nat × Value)) :
    Nat → List Nat → Option (List Nat × List Value)
  | 0, input => some (input, [])
  | k + 1, input => do
    let (r, v) ← p input
    let (r', vs) ← countP p k r
    some (r', v :: vs)

/-- nom `many_till(p, tag(0xFF))`: applications of `p` until the `0xFF`
terminator byte (fuelled; every iteration consumes at least one byte). -/
def manyTillP (p : List Nat → Option (List Nat × Value)) :
    Nat → List Nat → Option (List Nat × List Value)
  | 0, _ => none
  | _ + 1, 255 :: rest => some (rest, [])
  | fuel + 1, input => do
    let (r, v) ← p input
    let (r', vs) ← manyTillP p fuel r
    some (r', v :: vs)

/-- nom `count(tuple((p, p)), n)`: exactly `n` key/value pairs. -/
def countPairsP (p : List Nat → Option (List Nat × Value)) :
    Nat → List Nat → Option (List Nat × List (Value × Value))
  | 0, input => some (input, [])
  | k + 1, input => do
    let (r, kv) ← p input
    let (r', vv) ← p r
    let (r'', es) ← countPairsP p k r'
    some (r'', (kv, vv) :: es)

/-- nom `many_till(tuple((p, p)), tag(0xFF))`: key/value pairs until the
`0xFF` terminator byte. -/
def manyTillPairsP (p : List Nat → Option (List Nat × Value)) :
    Nat → List Nat → Option (List Nat × List (Value × Value))
  | 0, _ => none
  | _ + 1, 255 :: rest => some (rest, [])
  | fuel + 1, input => do
    let (r, kv) ← p input
    let (r', vv) ← p r
    let (r'', es) ← manyTillPairsP p fuel r'
    some (r'', (kv, vv) :: es)

/-- `parse`: split the header byte, then dispatch on the major type.  The
reserved major type 7 hits a `todo!()` in the source (a panic, modelled
here together with parse failures as `none`).  The `array` arm is
`parse_array` (indefinite via `many_till` up to the `0xFF` tag, definite
via `count`); the `map` arm is `parse_map`, whose definite-length branch
discards each entry's key, replacing it with the empty `BytesMut::new()`
placeholder, while the indefinite-length branch keys each entry by the
encoded key bytes. -/
def parseV : Nat → List Nat → Option (List Nat × Value)
  | 0, _ => none
  | fuel + 1, input =>
    match input with
    | [] => none
    | b :: rest =>
      let major := b >>> 5
      let size := b &&& 0x1F
      if major = POSITIVE_MAJOR then
        (parse_number rest size).map (fun p => (p.1, .positive p.2))
      else if major = NEGATIVE_MAJOR then
        (parse_number rest size).map (fun p => (p.1, .negative (-1 - asI64 p.2)))
      else if major = BYTES_MAJOR then parse_bytes rest size
      else if major = STRING_MAJOR then parse_string rest size
      else if major = ARRAY_MAJOR then
        if size = INDEFINITE_LENGTH then
          (manyTillP (parseV fuel) fuel rest).map (fun p => (p.1, .array p.2))
        else
          (countP (parseV fuel) size rest).map (fun p => (p.1, .array p.2))
      else if major = ERROR_MAJOR then parse_error rest size
      else if major = MAP_MAJOR then
        if size = INDEFINITE_LENGTH then
          (manyTillPairsP (parseV fuel) fuel rest).map
            (fun p =>
              (p.1, .map (hashMapFromIter (p.2.map (fun e => (e.1.encode, e.2))))))
        else
          (countPairsP (parseV fuel) size rest).map
            (fun p =>
              (p.1, .map (hashMapFromIter (p.2.map (fun e => ([], e.2))))))
      else none

/-- The top-level `parse(bytes) → (remaining, Value)` with adequate fuel:
every fuel decrement follows either a consumed header byte or a consumed
terminator byte, so `2 * input.length + 2` can never run out. -/
def parse (input : List Nat) : Option (List Nat × Value) :=
  parseV (2 * input.length + 2) input

/-! ### Errors (`src/error.rs`) and frame transport (`src/codec.rs`) -/

/-- `ProtocolError` from `src/error.rs` (payloads of the `Read`/`Parse`
variants are irrelevant to the claims and dropped). -/
inductive ProtocolError where
  | read
  | zeroRead
  | parse
  | command
  deriving Repr, DecidableEq

/-- The `Connection` state that `read_frame` interacts with: its internal
`BytesMut` buffer.  The duplex stream halves are modelled by passing the
bytes an underlying read returns as an explicit argument. -/
structure Connection where
  buf : List Nat
  deriving Repr

/-- `Connection::read_frame` from `src/codec.rs`: clear the buffer,
perform the single `read_buf` (which appends `chunk`, returning the number
of bytes read), fail with `ZeroRead` when that number is zero, and
otherwise parse `&self.buf[..read]`, keeping only the parsed value.  A nom
failure maps to `ProtocolError::Parse` (the unreachable reserved-major
`todo!()` is conflated with it, as in `parseV`). -/
def read_frame (conn : Connection) (chunk : List Nat) :
    Connection × Except ProtocolError Value :=
  let cleared : Connection := { conn with buf := [] }
  let filled : Connection := { cleared with buf := cleared.buf ++ chunk }
  let read := chunk.length
  if read = 0 then (filled, .error .zeroRead)
  else
    match parse (filled.buf.take read) with
    | some p => (filled, .ok p.2)
    | none => (filled, .error .parse)

/-! ### Command layer (`src/command/`) -/

/-- The seven command variants of `CommandEntry` (`src/command/entry.rs`),
with the per-command structs' fields inlined. -/
inductive CommandEntry where
  | ping
  | get (key : List Nat)
  | set (key : List Nat) (value : Value)
  | incr (key : List Nat)
  | incrBy (key : List Nat) (delta : Int)
  | decr (key : List Nat)
  | decrBy (key : List Nat) (delta : Int)
  deriving Repr

/-- The `EMPTY` message from `src/command/get.rs`. -/
def EMPTY : List Nat := asciiBytes "Can not find the key"

/-- The "Not a number" message from `src/command/decr.rs`. -/
def NOT_A_NUMBER : List Nat := asciiBytes "Not a number"

/-- `Ping::decode`: succeeds exactly on an empty argument list. -/
def pingDecode (req : List Value) : Option (Except ProtocolError CommandEntry) :=
  if req.isEmpty then some (.ok .ping) else some (.error .command)

/-- `Get::decode`: indexes `req[0]` — a panic (`none`) when the argument
list is empty — and accepts any `Bytes` first argument, ignoring any
further arguments. -/
def getDecode (req : List Value) : Option (Except ProtocolError CommandEntry) :=
  match req with
  | [] => none
  | v :: _ =>
    match v with
    | .bytes _ b => some (.ok (.get b))
    | _ => some (.error .command)

/-- `Set::decode`: exactly `[Bytes(key), value]`, the value made owned. -/
def setDecode (req : List Value) : Option (Except ProtocolError CommandEntry) :=
  match req with
  | [.bytes _ k, v] => some (.ok (.set k v.toOwned))
  | _ => some (.error .command)

/-- `Decr::decode`: same shape as `Get::decode` (indexes `req[0]`,
ignores extra arguments). -/
def decrDecode (req : List Value) : Option (Except ProtocolError CommandEntry) :=
  match req with
  | [] => none
  | v :: _ =>
    match v with
    | .bytes _ b => some (.ok (.decr b))
    | _ => some (.error .command)

/-- `DecrBy::decode`: exactly `[Bytes(key), Negative(by)]`. -/
def decrByDecode (req : List Value) : Option (Except ProtocolError CommandEntry) :=
  match req with
  | [.bytes _ k, .negative d] => some (.ok (.decrBy k d))
  | _ => some (.error .command)

/-- Modelled from the spec: `Incr::decode` (the `incr` module's source
file is not under `src/`); the command table requires exactly
`[Bytes(key)]`, any shape mismatch failing with `CommandError`. -/
def incrDecode (req : List Value) : Option (Except ProtocolError CommandEntry) :=
  match req with
  | [.bytes _ k] => some (.ok (.incr k))
  | _ => some (.error .command)

/-- Modelled from the spec: `IncrBy::decode` (the `incr` module's source
file is not under `src/`); the command table requires exactly
`[Bytes(key), Negative(by)]`, any shape mismatch failing with
`CommandError`. -/
def incrByDecode (req : List Value) : Option (Except ProtocolError CommandEntry) :=
  match req with
  | [.bytes _ k, .negative d] => some (.ok (.incrBy k d))
  | _ => some (.error .command)

/-- `CommandEntry::parse` from `src/command/entry.rs`: the input must be
an `Array`; an empty array fails with `CommandError`
(`first().ok_or(...)`); the first element must match the pattern
`Value::String(Cow::Borrowed(_))` — an owned string fails with
`CommandError`; the name dispatches to the per-command decoders; an
unknown name hits `todo!()` — a panic, modelled by `none`. -/
def commandEntryParse (input : Value) : Option (Except ProtocolError CommandEntry) :=
  match input with
  | .array arr =>
    match arr with
    | [] => some (.error .command)
    | first :: rest =>
      match first with
      | .str false s =>
        if s = asciiBytes "PING" then pingDecode rest
        else if s = asciiBytes "GET" then getDecode rest
        else if s = asciiBytes "SET" then setDecode rest
        else if s = asciiBytes "INCR" then incrDecode rest
        else if s = asciiBytes "INCRBY" then incrByDecode rest
        else if s = asciiBytes "DECR" then decrDecode rest
        else if s = asciiBytes "DECRBY" then decrByDecode rest
        else none
      | _ => some (.error .command)
  | _ => some (.error .command)

/-- `Ping::encode`: `["PING"]` with a borrowed name. -/
def pingEncode : Value := .array [.str false (asciiBytes "PING")]

/-- `Get::encode`: the key re-collected into an owned `Vec`
(`Cow::from(...to_vec())`). -/
def getEncode (key : List Nat) : Value :=
  .array [.str false (asciiBytes "GET"), .bytes true key]

/-- `Set::encode`: key owned, value made owned. -/
def setEncode (key : List Nat) (v : Value) : Value :=
  .array [.str false (asciiBytes "SET"), .bytes true key, v.toOwned]

/-- `Decr::encode`: borrowed name and key. -/
def decrEncode (key : List Nat) : Value :=
  .array [.str false (asciiBytes "DECR"), .bytes false key]

/-- `DecrBy::encode`: borrowed name and key plus the `Negative` delta. -/
def decrByEncode (key : List Nat) (d : Int) : Value :=
  .array [.str false (asciiBytes "DECRBY"), .bytes false key, .negative d]

/-- Modelled from the spec: `Incr::encode` (the `incr` module's source
file is not under `src/`): `Array([String(name), …fields])`. -/
def incrEncode (key : List Nat) : Value :=
  .array [.str false (asciiBytes "INCR"), .bytes false key]

/-- Modelled from the spec: `IncrBy::encode` (the `incr` module's source
file is not under `src/`): `Array([String(name), …fields])` with the
delta wire-encoded via the `Negative` major type. -/
def incrByEncode (key : List Nat) (d : Int) : Value :=
  .array [.str false (asciiBytes "INCRBY"), .bytes false key, .negative d]

/-- `CommandEntry::encode`: the per-command encoding made fully owned by
`Value::to_owned`. -/
def commandEntryEncode : CommandEntry → Value
  | .ping => pingEncode.toOwned
  | .get k => (getEncode k).toOwned
  | .set k v => (setEncode k v).toOwned
  | .incr k => (incrEncode k).toOwned
  | .incrBy k d => (incrByEncode k d).toOwned
  | .decr k => (decrEncode k).toOwned
  | .decrBy k d => (decrByEncode k d).toOwned

/-! ### Store and command execution

The sharded store is consumed, not implemented, by the core (spec §3/§6):
it is modelled as an association list from key bytes to owned values, with
`insert` returning the previous value.  Shard locking and the network
writes are outside the shallow embedding; each `execute` returns the
`Value` written as the response frame together with the updated store. -/

/-- The store contents: key bytes to owned values. -/
abbrev Db : Type := List (List Nat × Value)

/-- Shared read access: look a key up. -/
def dbLookup (k : List Nat) : Db → Option Value
  | [] => none
  | (k', v) :: rest => if k' = k then some v else dbLookup k rest

/-- `insert(key, value) → Option<Value>`: replace and return the previous
binding if present, else append. -/
def dbInsert (k : List Nat) (v : Value) : Db → Option Value × Db
  | [] => (none, [(k, v)])
  | (k', v') :: rest =>
    if k' = k then (some v', (k', v) :: rest)
    else
      let p := dbInsert k v rest
      (p.1, (k', v') :: p.2)

/-- In-place mutation through `get_mut` (`*value = …`): replace the
binding for a present key. -/
def dbAssign (k : List Nat) (v : Value) : Db → Db
  | [] => []
  | (k', v') :: rest =>
    if k' = k then (k', v) :: rest else (k', v') :: dbAssign k v rest

/-- `Set::execute` from `src/command/set.rs`: insert the new value and
respond with the displaced previous value, or `Error(EMPTY)` if the key
was fresh. -/
def setExecute (key : List Nat) (v : Value) (db : Db) : Value × Db :=
  let p := dbInsert key v db
  (match p.1 with
   | some prev => prev
   | none => .error false EMPTY, p.2)

/-- `Decr::execute` from `src/command/decr.rs`: `Positive(p)` becomes
`Positive(p - 1)` via plain `u64` subtraction (wrapping in release mode),
`Negative(n)` becomes `Negative(n - 1)`, any other stored kind responds
`Error("Not a number")` without mutating, and an absent key is initialised
to `Positive(0)`. -/
def decrExecute (key : List Nat) (db : Db) : Value × Db :=
  match dbLookup key db with
  | some (.positive p) =>
    let q := u64_wrapping_sub p 1
    (.positive q, dbAssign key (.positive q) db)
  | some (.negative n) =>
    let m := i64_wrapping_sub n 1
    (.negative m, dbAssign key (.negative m) db)
  | some _ => (.error false NOT_A_NUMBER, db)
  | none => (.positive 0, (dbInsert key (.positive 0) db).2)

/-- `DecrBy::execute` from `src/command/decr.rs`: like `Decr` with the
decoded delta; the `Positive` arm computes `(p as i64 - by) as u64`. -/
def decrByExecute (key : List Nat) (d : Int) (db : Db) : Value × Db :=
  match dbLookup key db with
  | some (.positive p) =>
    let q := toU64 (asI64 p - d)
    (.positive q, dbAssign key (.positive q) db)
  | some (.negative n) =>
    let m := i64_wrapping_sub n d
    (.negative m, dbAssign key (.negative m) db)
  | some _ => (.error false NOT_A_NUMBER, db)
  | none => (.positive 0, (dbInsert key (.positive 0) db).2)

/-- Modelled from the spec: `Incr::execute` (the `incr` module's source
file is not under `src/`): mirrors `Decr::execute` with `+1` — absent
keys are initialised to `Positive(0)`, `Positive(p)` becomes `p + 1`,
`Negative(n)` becomes `n + 1`, and any other stored kind responds
`Error("Not a number")` without mutating. -/
def incrExecute (key : List Nat) (db : Db) : Value × Db :=
  match dbLookup key db with
  | some (.positive p) =>
    let q := (p + 1) % 2 ^ 64
    (.positive q, dbAssign key (.positive q) db)
  | some (.negative n) =>
    let m := i64_wrapping_add n 1
    (.negative m, dbAssign key (.negative m) db)
  | some _ => (.error false NOT_A_NUMBER, db)
  | none => (.positive 0, (dbInsert key (.positive 0) db).2)

/-- Modelled from the spec: `IncrBy::execute` (the `incr` module's source
file is not under `src/`): identical to `Incr` but the magnitude of change
is the decoded `by`, with the same per-variant arithmetic. -/
def incrByExecute (key : List Nat) (d : Int) (db : Db) : Value × Db :=
  match dbLookup key db with
  | some (.positive p) =>
    let q := toU64 (asI64 p + d)
    (.positive q, dbAssign key (.positive q) db)
  | some (.negative n) =>
    let m := i64_wrapping_add n d
    (.negative m, dbAssign key (.negative m) db)
  | some _ => (.error false NOT_A_NUMBER, db)
  | none => (.positive 0, (dbInsert key (.positive 0) db).2)

/-! ## Theorems -/

/-- `insert` returns exactly the previously stored binding. -/
theorem dbInsert_fst (k : List Nat) (v : Value) (db : Db) :
    (dbInsert k v db).1 = dbLookup k db := by
  induction db with
  | nil => rfl
  | cons e rest ih =>
    obtain ⟨k', v'⟩ := e
    by_cases h : k' = k <;> simp [dbInsert, dbLookup, h, ih]

/-- After `insert`, the key maps to the inserted value. -/
theorem dbLookup_dbInsert (k : List Nat) (v : Value) (db : Db) :
    dbLookup k (dbInsert k v db).2 = some v := by
  induction db with
  | nil => simp [dbInsert, dbLookup]
  | cons e rest ih =>
    obtain ⟨k', v'⟩ := e
    by_cases h : k' = k <;> simp [dbInsert, dbLookup, h, ih]

/-- C1: the claimed round-trip `decode(encode(v)) == v` fails on the code:
at `Value::Negative(-5)` the encoder emits the inline header `0x25`
(magnitude `-n = 5`, not the offset `-(n+1) = 4`), and the parser decodes
additional-info `5` under the offset scheme to `Negative(-6) ≠
Negative(-5)`. -/
theorem roundtrip_fails_on_inline_negative :
    Value.encode (.negative (-5)) = [37] ∧
    parse [37] = some ([], .negative (-6)) ∧
    Value.negative (-6) ≠ Value.negative (-5) := by
  refine ⟨by decide, rfl, fun h => ?_⟩
  exact absurd (Value.negative.inj h) (by decide)

/-- C2: the encoder and parser do not agree on string headers.  The
encoder writes the payload length directly (`"hi"` gets header `0x62`,
additional-info `2`), but parsing that header yields the inline
single-byte value `Bytes([2])` and consumes no payload bytes — not a
2-byte payload; and for a 32-byte string the encoder emits additional-info
`0`, not the sentinel `31`. -/
theorem string_encode_parse_scheme_mismatch :
    encode_string (asciiBytes "hi") = [98, 104, 105] ∧
    (98 : Nat) &&& 31 = 2 ∧
    parse [98, 104, 105] = some ([104, 105], .bytes true [2]) ∧
    encode_string (List.replicate 32 97) = 96 :: List.replicate 32 97 ∧
    (96 : Nat) &&& 31 = 0 := by
  exact ⟨rfl, rfl, rfl, by decide, rfl⟩

/-- C3: map encoding does not carry the map major type: a one-entry map
gets header `0x81 = ARRAY_MAJOR · 32 + 1`, and a 31-entry map gets the
bare sentinel byte `31`, whose major bits are `0`, not `MAP_MAJOR`. -/
theorem map_encoding_header_major :
    Value.encode (.map [([5], .positive 1)]) = [129, 5, 1] ∧
    (129 : Nat) >>> 5 = ARRAY_MAJOR ∧
    (129 : Nat) >>> 5 ≠ MAP_MAJOR ∧
    (Value.encode (.map ((List.range 31).map fun i => ([i], .positive 0)))).head?
      = some 31 ∧
    (31 : Nat) >>> 5 ≠ MAP_MAJOR := by
  exact ⟨rfl, rfl, by decide, rfl, by decide⟩

/-- C4: `CommandEntry::parse` is not total-with-`CommandError`: an unknown
command name hits `todo!()` (a panic, `none` in the model), `GET` with no
arguments panics on the `req[0]` index, and `GET` with an extra argument
is accepted rather than rejected for wrong arity. -/
theorem command_parse_panics_or_accepts_wrong_arity :
    commandEntryParse (.array [.str false (asciiBytes "FOO")]) = none ∧
    commandEntryParse (.array [.str false (asciiBytes "GET")]) = none ∧
    commandEntryParse
        (.array [.str false (asciiBytes "GET"), .bytes false [107], .positive 1])
      = some (.ok (.get [107])) :=
  ⟨rfl, rfl, rfl⟩

/-- C5: `CommandEntry::parse(cmd.encode())` fails for every command:
`encode` ends with `to_owned`, so the command name is
`String(Cow::Owned(…))`, while `parse` only matches
`String(Cow::Borrowed(…))` and therefore returns `CommandError` instead of
the command (shown at `Ping`). -/
theorem command_encode_parse_not_inverse :
    commandEntryEncode .ping = .array [.str true (asciiBytes "PING")] ∧
    commandEntryParse (commandEntryEncode .ping) = some (.error .command) :=
  ⟨rfl, rfl⟩

/-- C6: `Set::execute` stores the new value and responds with the
displaced previous value when one existed, else `Error("Can not find the
key")`; in particular the first `SET` on a fresh key yields the error and
a second `SET` yields the first value, never the newly set one. -/
theorem set_response_is_displaced_value
    (k : List Nat) (v v1 v2 : Value) (db : Db) :
    dbLookup k (setExecute k v db).2 = some v ∧
    (setExecute k v db).1 =
      (match dbLookup k db with
       | some prev => prev
       | none => Value.error false EMPTY) ∧
    (setExecute k v1 []).1 = Value.error false EMPTY ∧
    (setExecute k v2 (setExecute k v1 []).2).1 = v1 := by
  refine ⟨?_, ?_, rfl, ?_⟩
  · simpa [setExecute] using dbLookup_dbInsert k v db
  · simp [setExecute, dbInsert_fst]
  · simp [setExecute, dbInsert]

/-- C7: on a key whose stored value is neither `Positive` nor `Negative`,
each of `INCR`, `DECR`, `INCRBY`, `DECRBY` responds
`Error("Not a number")` and leaves the store unchanged. -/
theorem incr_decr_type_guard (db : Db) (k : List Nat) (v : Value) (d : Int)
    (hv : dbLookup k db = some v) (hn : v.isNumber = false) :
    decrExecute k db = (.error false NOT_A_NUMBER, db) ∧
    decrByExecute k d db = (.error false NOT_A_NUMBER, db) ∧
    incrExecute k db = (.error false NOT_A_NUMBER, db) ∧
    incrByExecute k d db = (.error false NOT_A_NUMBER, db) := by
  cases v <;> simp [Value.isNumber] at hn <;>
    simp [decrExecute, decrByExecute, incrExecute, incrByExecute, hv]

/-- Witness for C7 at a store holding a string value. -/
theorem incr_decr_type_guard_witness :
    dbLookup [107] [([107], Value.str true [120])] = some (.str true [120]) ∧
    Value.isNumber (.str true [120]) = false ∧
    decrExecute [107] [([107], .str true [120])] =
      (.error false NOT_A_NUMBER, [([107], .str true [120])]) := by
  refine ⟨rfl, rfl, ?_⟩
  exact (incr_decr_type_guard [([107], .str true [120])] [107]
    (.str true [120]) 1 rfl rfl).1

/-- C8: `read_frame` fails with `ZeroRead` exactly when the single
underlying read returned zero bytes; when the buffer's prefix parses, the
parsed value is returned and any remaining bytes of that read are
discarded; and the result never depends on stale buffer contents from a
previous read (the buffer is cleared first). -/
theorem read_frame_single_read (conn conn' : Connection) (chunk : List Nat) :
    ((read_frame conn chunk).2 = .error .zeroRead ↔ chunk = []) ∧
    (∀ rest v, parse chunk = some (rest, v) →
      (read_frame conn chunk).2 = .ok v) ∧
    (read_frame conn chunk).2 = (read_frame conn' chunk).2 := by
  refine ⟨?_, ?_, rfl⟩
  · by_cases hc : chunk = []
    · subst hc; simp [read_frame]
    · have hl : chunk.length ≠ 0 := by simpa [List.length_eq_zero] using hc
      simp only [read_frame, List.nil_append, List.take_length, if_neg hl]
      cases hp : parse chunk <;> simp [hc]
  · intro rest v h
    have hc : chunk.length ≠ 0 := by
      rintro hlen
      rw [List.length_eq_zero] at hlen
      subst hlen
      rw [show parse ([] : List Nat) = none from rfl] at h
      cases h
    simp [read_frame, hc, h]

/-- Witness for C8: a one-byte read parses to `Positive(5)` regardless of
stale buffer contents, and an empty read is `ZeroRead`. -/
theorem read_frame_single_read_witness :
    (read_frame ⟨[1, 2, 3]⟩ [5]).2 = .ok (.positive 5) ∧
    ((read_frame ⟨[1, 2, 3]⟩ []).2 = .error .zeroRead ↔ ([] : List Nat) = []) :=
  ⟨(read_frame_single_read ⟨[1, 2, 3]⟩ ⟨[]⟩ [5]).2.1 [] (.positive 5) rfl,
   (read_frame_single_read ⟨[1, 2, 3]⟩ ⟨[]⟩ []).1⟩

/-- C9: `DECR` on a stored `Positive(0)` takes the underflowing branch of
the guarded `u64` subtraction (`0 - 1` has no `u64` result), and the
release-mode behaviour wraps to `Positive(2^64 - 1)` — it does not
transition to `Negative(-1)`. -/
theorem decr_positive_zero_wraps (db : Db) (k : List Nat)
    (h : dbLookup k db = some (.positive 0)) :
    u64_sub 0 1 = none ∧
    decrExecute k db =
      (.positive (2 ^ 64 - 1), dbAssign k (.positive (2 ^ 64 - 1)) db) ∧
    Value.positive (2 ^ 64 - 1) ≠ Value.negative (-1) := by
  have e : u64_wrapping_sub 0 1 = 2 ^ 64 - 1 := rfl
  exact ⟨rfl, by simp [decrExecute, h, e], fun hc => Value.noConfusion hc⟩

/-- Witness for C9 at the one-key store `{[9] ↦ Positive(0)}`. -/
theorem decr_positive_zero_wraps_witness :
    dbLookup [9] [([9], Value.positive 0)] = some (.positive 0) ∧
    decrExecute [9] [([9], Value.positive 0)] =
      (.positive (2 ^ 64 - 1), [([9], Value.positive (2 ^ 64 - 1))]) := by
  refine ⟨rfl, ?_⟩
  exact (decr_positive_zero_wraps [([9], .positive 0)] [9] rfl).2.1

/-- C10: for the bytes, text-string and error-string major types with
additional-info `a < 23`, `parse` consumes no payload bytes and yields
`Value::Bytes([a])` (never a `String`/`Error`), while the encoder folds a
single-byte payload into the header exactly when that byte is `< 24` —
the two inline thresholds differ. -/
theorem parser_inline_byte_encoder_threshold (input : List Nat) (a b : Nat)
    (ha : a < 23) :
    parse (((BYTES_MAJOR <<< 5) ||| a) :: input) = some (input, .bytes true [a]) ∧
    parse (((STRING_MAJOR <<< 5) ||| a) :: input) = some (input, .bytes true [a]) ∧
    parse (((ERROR_MAJOR <<< 5) ||| a) :: input) = some (input, .bytes true [a]) ∧
    encode_bytes [b] =
      (if b < 24 then [(BYTES_MAJOR <<< 5) ||| b]
       else [(BYTES_MAJOR <<< 5) ||| 1, b]) := by
  refine ⟨?_, ?_, ?_, ?_⟩
  · interval_cases a <;> rfl
  · interval_cases a <;> rfl
  · interval_cases a <;> rfl
  · by_cases hb : b < 24 <;> simp [encode_bytes, hb]

/-- Witness for C10 at additional-info `5`, payload byte `30`. -/
theorem parser_inline_byte_encoder_threshold_witness :
    (5 : Nat) < 23 ∧
    parse [69, 1, 2] = some ([1, 2], Value.bytes true [5]) :=
  ⟨by decide, (parser_inline_byte_encoder_threshold [1, 2] 5 30 (by decide)).1⟩

end Kvs
